import Mathlib

/-!
Verification of the V32 US stock monitor (src/v32_us_app.py) against its
specification.  The scoring engine, market-regime classifier,
earnings-proximity estimator, indicator pipeline and watchlist/position
evaluator are embedded shallowly: prices, moving averages and volumes are
modelled as rationals, Python `None`-returning fallible code as `Option`,
and the IEEE-float corner cases of the RSI computation (division of a
positive average gain by a zero average loss giving `inf`, `0/0` giving
`NaN`) as explicit case splits.
-/

set_option maxRecDepth 100000

open scoped List

namespace V32

/-! ## Market regime classifier (`get_market_status`, lines 96-128) -/

/-- Regime labels assigned by `get_market_status` (lines 113-125).  The
initial value `不明` (Unknown) is overwritten on every branch of the
moving-average comparison, so only these four labels can be returned when
index history is available. -/
inductive Regime
  | bullish
  | correction
  | weak
  | bearish
deriving DecidableEq

/-- Embedding of the nested moving-average comparison of
`get_market_status` (lines 113-125): the status assigned for the current
index close `curr` and its 20/50/200-day moving averages. -/
def get_market_status (curr ma20 ma50 ma200 : ℚ) : Regime :=
  if curr > ma200 then
    if curr > ma20 then .bullish
    else if curr > ma50 then .correction
    else .weak
  else .bearish

/-- Modelled from the spec's decision list for the regime classifier:
first match wins among `close ≤ ma200 → Bearish`, `close > ma20 →
Bullish`, `close > ma50 → Correction`, otherwise `Weak`. -/
def regimeSpecOrder (curr ma20 ma50 ma200 : ℚ) : Regime :=
  if curr ≤ ma200 then .bearish
  else if curr > ma20 then .bullish
  else if curr > ma50 then .correction
  else .weak

/-! ## Composite scorer (`calculate_v32_us`, lines 189-214) -/

/-- Derived inputs of the scorer, all taken from the last bar of the price
series (spec's IndicatorSnapshot).  `rsi` is `none` when the pandas RSI
computation produces `NaN` (average gain and average loss both zero);
Python comparisons against `NaN` are false, which the scorer embedding
reproduces. -/
structure IndicatorSnapshot where
  close : ℚ
  ma20 : ℚ
  ma50 : ℚ
  ma200 : ℚ
  rvol : ℚ
  rsi : Option ℚ
  macd : ℚ
  macdSignal : ℚ
deriving DecidableEq

/-- The RSI sweet-spot test `50 < rsi < 75` of line 204.  A `NaN` RSI
(modelled as `none`) fails the chained Python comparison. -/
def rsiSweet : Option ℚ → Bool
  | some r => decide (50 < r) && decide (r < 75)
  | none => false

/-- The additive if-chain of lines 190-206 followed by the clamp
`min(100, score)` of line 214, abstracted over the ten boolean rule
gates in source order. -/
def scoreFromConds (b1 b2 b3 b4 b5 b6 b7 b8 b9 b10 : Bool) : ℕ :=
  let s := 60
  let s := if b1 then s + 10 else s
  let s := if b2 then s + 10 else s
  let s := if b3 then s + 10 else s
  let s := if b4 then s + 10 else s
  let s := if b5 then s + 5 else s
  let s := if b6 then s + 10 else s
  let s := if b7 then s + 15 else s
  let s := if b8 then s + 10 else s
  let s := if b9 then s + 10 else s
  let s := if b10 then s + 10 else s
  min 100 s

/-- The composite V32 score of an indicator snapshot: the ten rule gates
of lines 193-206 fed into the additive chain, then clamped (line 214). -/
def calcScore (s : IndicatorSnapshot) : ℕ :=
  scoreFromConds
    (decide (s.close > s.ma200))
    (decide (s.ma50 > s.ma200))
    (decide (s.close > s.ma50))
    (decide (s.close > s.ma20))
    (decide (s.rvol > 1.2))
    (decide (s.rvol > 1.5))
    (decide (s.rvol > 2))
    (rsiSweet s.rsi)
    (decide (s.macd > s.macdSignal))
    (decide (s.macd > 0))

/-- Closed form of the additive chain: base 60 plus the weight of every
gate that fires, clamped at 100. -/
lemma scoreFromConds_eq (b1 b2 b3 b4 b5 b6 b7 b8 b9 b10 : Bool) :
    scoreFromConds b1 b2 b3 b4 b5 b6 b7 b8 b9 b10 =
      min 100 (60 +
        ((if b1 then 10 else 0) + (if b2 then 10 else 0) +
         (if b3 then 10 else 0) + (if b4 then 10 else 0) +
         (if b5 then 5 else 0) + (if b6 then 10 else 0) +
         (if b7 then 15 else 0) + (if b8 then 10 else 0) +
         (if b9 then 10 else 0) + (if b10 then 10 else 0))) := by
  cases b1 <;> cases b2 <;> cases b3 <;> cases b4 <;> cases b5 <;>
    cases b6 <;> cases b7 <;> cases b8 <;> cases b9 <;> cases b10 <;> rfl

/-- Claim C1: for every IndicatorSnapshot the composite scorer returns
`min(100, 60 + sum of the weights of the satisfied rules)`, with the ten
rules and weights exactly `close > ma200 (+10)`, `ma50 > ma200 (+10)`,
`close > ma50 (+10)`, `close > ma20 (+10)`, `rvol > 1.2 (+5)`,
`rvol > 1.5 (+10)`, `rvol > 2.0 (+15)`, `50 < rsi14 < 75 (+10)`,
`macd > macd_signal (+10)`, `macd > 0 (+10)`; the rules are independent
boolean gates that fire cumulatively, and the result is clamped at 100. -/
theorem composite_score_formula (s : IndicatorSnapshot) :
    calcScore s =
      min 100 (60 +
        ((if s.close > s.ma200 then 10 else 0) +
         (if s.ma50 > s.ma200 then 10 else 0) +
         (if s.close > s.ma50 then 10 else 0) +
         (if s.close > s.ma20 then 10 else 0) +
         (if s.rvol > 1.2 then 5 else 0) +
         (if s.rvol > 1.5 then 10 else 0) +
         (if s.rvol > 2 then 15 else 0) +
         (if rsiSweet s.rsi then 10 else 0) +
         (if s.macd > s.macdSignal then 10 else 0) +
         (if s.macd > 0 then 10 else 0))) := by
  unfold calcScore
  rw [scoreFromConds_eq]
  simp only [decide_eq_true_eq]

/-- Claim C2: the market regime classifier is a total function of the
quadruple `(close, ma20, ma50, ma200)` into the four labels, and agrees
everywhere with the first-match decision order `close ≤ ma200 → Bearish`;
else `close > ma20 → Bullish`; else `close > ma50 → Correction`; else
`Weak` — in particular every comparison is strict, so a tie at an exact
moving-average value falls to the not-greater branch. -/
theorem market_regime_decision (curr ma20 ma50 ma200 : ℚ) :
    get_market_status curr ma20 ma50 ma200 = regimeSpecOrder curr ma20 ma50 ma200 := by
  unfold get_market_status regimeSpecOrder
  rcases le_or_lt curr ma200 with h | h
  · rw [if_neg (not_lt.mpr h), if_pos h]
  · rw [if_pos h, if_neg (not_le.mpr h)]

/-! ## Earnings-proximity estimator (`get_earnings_days`, lines 130-148) -/

/-- Embedding of `get_earnings_days` (lines 130-148).  Dates are modelled
as integer day numbers; `edate = none` covers every path on which no
usable earnings date is extracted (empty calendar, wrong type, raised
exception), all of which return 999.  With a date, line 143 computes
`days = (e_date - today).days` and line 145 returns it only when
non-negative, else the 999 sentinel. -/
def get_earnings_days (today : ℤ) (edate : Option ℤ) : ℤ :=
  match edate with
  | none => 999
  | some e =>
    let days := e - today
    if days ≥ 0 then days else 999

/-- Claim C5: the earnings-proximity estimator returns the sentinel 999
when no earnings date is available, returns 999 for any date in the past
(the staleness cutoff is `days < 0`), and otherwise returns the
non-negative day count `earningsDate - today`; in particular
`estimate(today+7) = 7`, `estimate(today-30) = 999`,
`estimate(None) = 999`. -/
theorem earnings_days_spec (today : ℤ) :
    get_earnings_days today none = 999 ∧
    get_earnings_days today (some (today + 7)) = 7 ∧
    get_earnings_days today (some (today - 30)) = 999 ∧
    (∀ e : ℤ, e - today < 0 → get_earnings_days today (some e) = 999) ∧
    (∀ e : ℤ, 0 ≤ e - today →
      get_earnings_days today (some e) = e - today ∧
        0 ≤ get_earnings_days today (some e)) := by
  refine ⟨rfl, ?_, ?_, ?_, ?_⟩
  · simp [get_earnings_days]
  · simp [get_earnings_days]
  · intro e he
    simp only [get_earnings_days]
    rw [if_neg (by omega)]
  · intro e he
    simp only [get_earnings_days]
    rw [if_pos (by omega)]
    exact ⟨rfl, he⟩

/-- Witness for claim C5 at `today = 1000`, `e = 970`: a thirty-day-old
date maps to the sentinel and a future date to its day count. -/
theorem earnings_days_spec_witness :
    get_earnings_days 1000 (some 970) = 999 ∧
    get_earnings_days 1000 (some 1003) = 3 := by
  refine ⟨(earnings_days_spec 1000).2.2.2.1 970 (by decide), ?_⟩
  have h := ((earnings_days_spec 1000).2.2.2.2 1003 (by decide)).1
  rw [h]
  decide

/-- Monotonicity of a single weighted gate: turning a gate on can only
keep or increase its contribution. -/
lemma ite_weight_mono (b c : Bool) (w : ℕ) (h : b = true → c = true) :
    (if b then w else 0) ≤ (if c then w else 0) := by
  cases b
  · simp
  · rw [h rfl]

/-- Claim C3: the composite score lies in `[0, 100]`, and the score is a
non-decreasing function of each individual rule condition — flipping any
single gate (indeed any set of gates) from false to true while holding
the others fixed never decreases the returned score. -/
theorem score_bounds_and_monotone :
    (∀ s : IndicatorSnapshot, 0 ≤ calcScore s ∧ calcScore s ≤ 100) ∧
    (∀ b1 b2 b3 b4 b5 b6 b7 b8 b9 b10 c1 c2 c3 c4 c5 c6 c7 c8 c9 c10 : Bool,
      (b1 = true → c1 = true) → (b2 = true → c2 = true) →
      (b3 = true → c3 = true) → (b4 = true → c4 = true) →
      (b5 = true → c5 = true) → (b6 = true → c6 = true) →
      (b7 = true → c7 = true) → (b8 = true → c8 = true) →
      (b9 = true → c9 = true) → (b10 = true → c10 = true) →
      scoreFromConds b1 b2 b3 b4 b5 b6 b7 b8 b9 b10 ≤
        scoreFromConds c1 c2 c3 c4 c5 c6 c7 c8 c9 c10) := by
  constructor
  · intro s
    refine ⟨Nat.zero_le _, ?_⟩
    unfold calcScore
    rw [scoreFromConds_eq]
    exact min_le_left _ _
  · intro b1 b2 b3 b4 b5 b6 b7 b8 b9 b10 c1 c2 c3 c4 c5 c6 c7 c8 c9 c10
      h1 h2 h3 h4 h5 h6 h7 h8 h9 h10
    rw [scoreFromConds_eq, scoreFromConds_eq]
    gcongr <;> solve_by_elim [ite_weight_mono]

/-- Witness for claim C3: the all-gates-off score (60) is at most the
all-gates-on score (100), via the monotonicity statement. -/
theorem score_bounds_and_monotone_witness :
    scoreFromConds false false false false false false false false false false ≤
      scoreFromConds true true true true true true true true true true :=
  score_bounds_and_monotone.2 false false false false false false false false false false
    true true true true true true true true true true
    (by decide) (by decide) (by decide) (by decide) (by decide)
    (by decide) (by decide) (by decide) (by decide) (by decide)

/-! ## Watchlist and holdings records (`main`, lines 278-309) -/

/-- Scan output record of `calculate_v32_us` (lines 211-219).  Field
names transliterate the Chinese keys of the returned dict: 代號 ticker,
即時價 price, V32總分 score, RVol rvol, RSI rsi, 距200MA distMA200,
財報倒數 earnDays. -/
structure ScanResult where
  ticker : String
  price : ℚ
  score : ℕ
  rvol : ℚ
  rsi : Option ℚ
  distMA200 : ℚ
  earnDays : ℤ
deriving DecidableEq

/-- One row of the holdings risk panel (lines 285-307): profit in
currency, return on cost in percent, and the advisory label chosen by
lines 293-295. -/
structure HoldingRow where
  cost : ℚ
  price : ℚ
  profit : ℚ
  profitPct : ℚ
  earnDays : ℤ
  score : ℕ
  advise : String
deriving DecidableEq

/-- Embedding of the per-position computation of lines 286-307:
`profit = (price - cost) * shares`, `profit_pct = (price - cost) / cost * 100`
and the advisory default 續抱 (hold), overridden to 財報避險 (earnings
risk exit) when earnings are at most five days away, else to 轉弱觀察
(weakening, watch) when the score is below 60. -/
def mkHoldingRow (cost shares : ℚ) (d : ScanResult) : HoldingRow :=
  let profit := (d.price - cost) * shares
  let profitPct := (d.price - cost) / cost * 100
  let advise :=
    if d.earnDays ≤ 5 then "🔴 財報避險"
    else if d.score < 60 then "🟡 轉弱觀察"
    else "🟢 續抱"
  { cost := cost, price := d.price, profit := profit, profitPct := profitPct,
    earnDays := d.earnDays, score := d.score, advise := advise }

/-- Claim C7: for each position joined with its scan result the holdings
pass computes `profit = (price - cost) * shares` and
`profitPct = (price - cost) / cost * 100`, and assigns the advisory label
by priority: earnings horizon at most 5 days gives the earnings-risk-exit
label, otherwise score below 60 gives the weakening-watch label,
otherwise the hold label. -/
theorem holdings_advisory_rules (cost shares : ℚ) (d : ScanResult) :
    (mkHoldingRow cost shares d).profit = (d.price - cost) * shares ∧
    (mkHoldingRow cost shares d).profitPct = (d.price - cost) / cost * 100 ∧
    (d.earnDays ≤ 5 → (mkHoldingRow cost shares d).advise = "🔴 財報避險") ∧
    (5 < d.earnDays → d.score < 60 →
      (mkHoldingRow cost shares d).advise = "🟡 轉弱觀察") ∧
    (5 < d.earnDays → 60 ≤ d.score →
      (mkHoldingRow cost shares d).advise = "🟢 續抱") := by
  dsimp only [mkHoldingRow]
  refine ⟨rfl, rfl, ?_, ?_, ?_⟩
  · intro h
    rw [if_pos h]
  · intro h1 h2
    rw [if_neg (by omega), if_pos h2]
  · intro h1 h2
    rw [if_neg (by omega), if_neg (by omega)]

/-- Witness for claim C7 at three concrete positions: a near-earnings
result exits, a weak-score result watches, a healthy result holds. -/
theorem holdings_advisory_rules_witness :
    (mkHoldingRow 10 3 ⟨"A", 12, 90, 1, none, 0, 4⟩).profit = (12 - 10) * 3 ∧
    (mkHoldingRow 10 3 ⟨"A", 12, 90, 1, none, 0, 4⟩).advise = "🔴 財報避險" ∧
    (mkHoldingRow 10 3 ⟨"B", 12, 59, 1, none, 0, 30⟩).advise = "🟡 轉弱觀察" ∧
    (mkHoldingRow 10 3 ⟨"C", 12, 80, 1, none, 0, 30⟩).advise = "🟢 續抱" :=
  ⟨(holdings_advisory_rules 10 3 ⟨"A", 12, 90, 1, none, 0, 4⟩).1,
   (holdings_advisory_rules 10 3 ⟨"A", 12, 90, 1, none, 0, 4⟩).2.2.1 (by decide),
   (holdings_advisory_rules 10 3 ⟨"B", 12, 59, 1, none, 0, 30⟩).2.2.2.1
     (by decide) (by decide),
   (holdings_advisory_rules 10 3 ⟨"C", 12, 80, 1, none, 0, 30⟩).2.2.2.2
     (by decide) (by decide)⟩

/-- Claim C10: when the next earnings date equals today the estimator
returns 0 (the stale cutoff is exactly `days < 0`), and a horizon of 0
satisfies the `earnings horizon at most 5` guard, triggering the
earnings-risk-exit advisory. -/
theorem earnings_today_triggers_exit (today : ℤ) (cost shares : ℚ) (d : ScanResult)
    (h : d.earnDays = get_earnings_days today (some today)) :
    get_earnings_days today (some today) = 0 ∧
      (mkHoldingRow cost shares d).advise = "🔴 財報避險" := by
  have h0 : get_earnings_days today (some today) = 0 := by
    simp [get_earnings_days]
  refine ⟨h0, ?_⟩
  dsimp only [mkHoldingRow]
  rw [if_pos (by rw [h, h0]; decide)]

/-- Witness for claim C10 at `today = 42` and a concrete position. -/
theorem earnings_today_triggers_exit_witness :
    get_earnings_days 42 (some 42) = 0 ∧
      (mkHoldingRow 10 3 ⟨"A", 12, 90, 1, none, 0, 0⟩).advise = "🔴 財報避險" :=
  earnings_today_triggers_exit 42 10 3 ⟨"A", 12, 90, 1, none, 0, 0⟩ (by decide)

/-! ## Indicator engine (`calculate_v32_us`, lines 150-221) -/

/-- One daily bar of the fetched price history; only the Close and Volume
columns are read by `calculate_v32_us`. -/
structure Bar where
  close : ℚ
  volume : ℚ
deriving DecidableEq

/-- The last `n` elements of a list: the window of the final value of a
pandas `rolling(n)` computation. -/
def lastN (n : ℕ) (l : List ℚ) : List ℚ := l.drop (l.length - n)

/-- Final value of `rolling(n).mean()` (lines 165-170): the simple mean
of the last `n` entries.  The callers only use it on series of at least
`n` entries (guarded by the 200-bar check of line 157). -/
def meanLast (n : ℕ) (l : List ℚ) : ℚ := (lastN n l).sum / n

/-- Day-over-day differences `close.diff()` (line 175): entry `i` is
`close[i+1] - close[i]`.  The leading `NaN` of pandas `diff` is replaced
by 0 by the `where` calls of lines 176-177 and never enters a
14-element window of a 200-bar series, so it is dropped here. -/
def diffs (l : List ℚ) : List ℚ := List.zipWith (fun a b => a - b) l.tail l

/-- Final value of the rolling 14-day mean of positive deltas
(line 176). -/
def gainAvg (closes : List ℚ) : ℚ :=
  ((lastN 14 (diffs closes)).map (fun d => max d 0)).sum / 14

/-- Final value of the rolling 14-day mean of negated negative deltas
(line 177). -/
def lossAvg (closes : List ℚ) : ℚ :=
  ((lastN 14 (diffs closes)).map (fun d => max (-d) 0)).sum / 14

/-- Lines 178-179, `rs = gain / loss; rsi = 100 - 100 / (1 + rs)`, under
IEEE float semantics: a positive gain average over a zero loss average
gives `rs = inf` hence `rsi = 100`; a zero gain average over a zero loss
average gives `rs = NaN` hence `rsi = NaN` (modelled as `none`); both
averages are non-negative by construction so no other sign cases
arise. -/
def rsiOfAvgs (g l : ℚ) : Option ℚ :=
  if l = 0 then
    if g = 0 then none else some 100
  else some (100 - 100 / (1 + g / l))

/-- The 14-day RSI of lines 174-179 as a function of the close series. -/
def rsi14 (closes : List ℚ) : Option ℚ := rsiOfAvgs (gainAvg closes) (lossAvg closes)

/-- Exponential moving average `ewm(span=n, adjust=False).mean()`
(lines 182-185): seeded with the first value, then
`y = a * x + (1 - a) * y_prev` with `a = 2 / (span + 1)`. -/
def ewm (span : ℕ) (l : List ℚ) : List ℚ :=
  match l with
  | [] => []
  | x :: xs =>
    let a : ℚ := 2 / ((span : ℚ) + 1)
    List.scanl (fun prev y => a * y + (1 - a) * prev) x xs

/-- The indicator snapshot computed by lines 160-187 from a fetched
history: last close, the three moving averages, relative volume with its
divide-by-zero guard (line 172), the RSI and the MACD pair. -/
def snapshotOf (hist : List Bar) : IndicatorSnapshot :=
  let close := hist.map Bar.close
  let vol := hist.map Bar.volume
  let curr := close.getLastD 0
  let ma20 := meanLast 20 close
  let ma50 := meanLast 50 close
  let ma200 := meanLast 200 close
  let volMa20 := meanLast 20 vol
  let currVol := vol.getLastD 0
  let rvol := if volMa20 > 0 then currVol / volMa20 else 0
  let macdLine := List.zipWith (fun a b => a - b) (ewm 12 close) (ewm 26 close)
  let signalLine := ewm 9 macdLine
  { close := curr, ma20 := ma20, ma50 := ma50, ma200 := ma200, rvol := rvol,
    rsi := rsi14 close, macd := macdLine.getLastD 0,
    macdSignal := signalLine.getLastD 0 }

/-- The record returned by lines 211-219 on success. -/
def resultOf (ticker : String) (hist : List Bar) (earnDays : ℤ) : ScanResult :=
  let snap := snapshotOf hist
  { ticker := ticker, price := snap.close, score := calcScore snap,
    rvol := snap.rvol, rsi := snap.rsi,
    distMA200 := (snap.close - snap.ma200) / snap.ma200 * 100,
    earnDays := earnDays }

/-- Embedding of `calculate_v32_us` (lines 150-221).  The fetched history
and the earnings-day count are passed in as the results of the external
data collaborators; line 157 returns `None` for fewer than 200 bars,
otherwise the scan record is produced. -/
def calculate_v32_us (ticker : String) (hist : List Bar) (earnDays : ℤ) :
    Option ScanResult :=
  if hist.length < 200 then none
  else some (resultOf ticker hist earnDays)

/-- The per-ticker keep test of the scan loops (lines 388 and 427):
`if data and data['V32總分'] >= thr: results.append(data)`. -/
def keepAbove (thr : ℕ) (o : Option ScanResult) : Option ScanResult :=
  match o with
  | some d => if thr ≤ d.score then some d else none
  | none => none

/-- The scan loop of lines 379-390 (and 417-429): each ticker of the pool
is scored and appended when a result exists and clears the threshold. -/
def scanPool (fetch : String → List Bar) (earn : String → ℤ) (thr : ℕ)
    (pool : List String) : List ScanResult :=
  pool.filterMap fun t => keepAbove thr (calculate_v32_us t (fetch t) (earn t))

/-- The raw per-ticker scan results of a pool, before thresholding. -/
def rawScan (fetch : String → List Bar) (earn : String → ℤ)
    (pool : List String) : List ScanResult :=
  pool.filterMap fun t => calculate_v32_us t (fetch t) (earn t)

/-! ### Helper lemmas about the pipeline -/

lemma calculate_of_short (t : String) (hist : List Bar) (e : ℤ)
    (hlen : hist.length < 200) : calculate_v32_us t hist e = none := by
  unfold calculate_v32_us
  rw [if_pos hlen]

lemma calculate_ticker {t : String} {hist : List Bar} {e : ℤ} {d : ScanResult}
    (h : calculate_v32_us t hist e = some d) : d.ticker = t := by
  unfold calculate_v32_us at h
  split at h
  · exact Option.noConfusion h
  · cases Option.some.inj h
    rfl

lemma calculate_score {t : String} {hist : List Bar} {e : ℤ} {d : ScanResult}
    (h : calculate_v32_us t hist e = some d) :
    d.score = calcScore (snapshotOf hist) := by
  unfold calculate_v32_us at h
  split at h
  · exact Option.noConfusion h
  · cases Option.some.inj h
    rfl

lemma keepAbove_eq_some {thr : ℕ} {o : Option ScanResult} {r : ScanResult}
    (h : keepAbove thr o = some r) : o = some r ∧ thr ≤ r.score := by
  cases o with
  | none => exact Option.noConfusion h
  | some d =>
    simp only [keepAbove] at h
    by_cases hd : thr ≤ d.score
    · rw [if_pos hd] at h
      cases Option.some.inj h
      exact ⟨rfl, hd⟩
    · rw [if_neg hd] at h
      exact Option.noConfusion h

/-- Claim C4: a price series with fewer than 200 bars produces no result
(`None`) rather than an error, and the scan loop then leaves the ticker
absent from its output. -/
theorem insufficient_history_no_result
    (fetch : String → List Bar) (earn : String → ℤ) (thr : ℕ) (pool : List String)
    (t : String) (hlen : (fetch t).length < 200) :
    calculate_v32_us t (fetch t) (earn t) = none ∧
    ∀ r ∈ scanPool fetch earn thr pool, r.ticker ≠ t := by
  refine ⟨calculate_of_short _ _ _ hlen, ?_⟩
  intro r hr hticker
  obtain ⟨t', _, heq⟩ := List.mem_filterMap.mp hr
  have hcalc : calculate_v32_us t' (fetch t') (earn t') = some r :=
    (keepAbove_eq_some heq).1
  have ht' : r.ticker = t' := calculate_ticker hcalc
  rw [ht'] at hticker
  subst hticker
  rw [calculate_of_short _ _ _ hlen] at hcalc
  exact Option.noConfusion hcalc

/-- Witness for claim C4: an empty history yields no result and the
ticker is absent from the scanned pool. -/
theorem insufficient_history_no_result_witness :
    calculate_v32_us "A" [] 999 = none ∧
    ∀ r ∈ scanPool (fun _ => []) (fun _ => 999) 70 ["A"], r.ticker ≠ "A" :=
  insufficient_history_no_result (fun _ => ([] : List Bar)) (fun _ => 999) 70
    ["A"] "A" (by decide)

/-- Lower and upper bounds of the additive score chain: the base is 60
and the clamp is 100. -/
lemma calcScore_bounds (s : IndicatorSnapshot) :
    60 ≤ calcScore s ∧ calcScore s ≤ 100 := by
  unfold calcScore
  rw [scoreFromConds_eq]
  exact ⟨le_min (by norm_num) (Nat.le_add_right 60 _), min_le_left _ _⟩

/-- Claim C9: every score produced by the scorer is at least 60 (the
score starts at 60, rules only add, and only an upper clamp is applied),
so scores lie in `[60, 100]` and the holdings-advisory branch guarded by
`score < 60` is never taken for a scan result produced by the scorer. -/
theorem scorer_floor_no_weakening (ticker : String) (hist : List Bar)
    (earnDays : ℤ) (d : ScanResult)
    (h : calculate_v32_us ticker hist earnDays = some d) :
    60 ≤ d.score ∧ d.score ≤ 100 ∧
      ∀ cost shares : ℚ, (mkHoldingRow cost shares d).advise ≠ "🟡 轉弱觀察" := by
  have hs := calculate_score h
  have hb := calcScore_bounds (snapshotOf hist)
  rw [← hs] at hb
  refine ⟨hb.1, hb.2, ?_⟩
  intro cost shares
  dsimp only [mkHoldingRow]
  split_ifs with hE hS
  · decide
  · exact absurd hS (by omega)
  · decide

/-- Witness for claim C9: a 200-bar constant history scores exactly 60
and its holdings advisory is never the weakening label. -/
theorem scorer_floor_no_weakening_witness :
    60 ≤ (⟨"AAPL", 5, 60, 1, none, 0, 999⟩ : ScanResult).score ∧
    (⟨"AAPL", 5, 60, 1, none, 0, 999⟩ : ScanResult).score ≤ 100 ∧
      ∀ cost shares : ℚ,
        (mkHoldingRow cost shares ⟨"AAPL", 5, 60, 1, none, 0, 999⟩).advise ≠
          "🟡 轉弱觀察" :=
  scorer_floor_no_weakening "AAPL" (List.replicate 200 ⟨5, 7⟩) 999
    ⟨"AAPL", 5, 60, 1, none, 0, 999⟩ (by with_unfolding_all decide)

/-! ### RSI bounds -/

lemma gainAvg_nonneg (closes : List ℚ) : 0 ≤ gainAvg closes := by
  unfold gainAvg
  apply div_nonneg _ (by norm_num)
  apply List.sum_nonneg
  intro x hx
  obtain ⟨d, _, rfl⟩ := List.mem_map.mp hx
  exact le_max_right d 0

lemma lossAvg_nonneg (closes : List ℚ) : 0 ≤ lossAvg closes := by
  unfold lossAvg
  apply div_nonneg _ (by norm_num)
  apply List.sum_nonneg
  intro x hx
  obtain ⟨d, _, rfl⟩ := List.mem_map.mp hx
  exact le_max_right (-d) 0

/-- Every day-over-day difference of a strictly rising close series is
positive. -/
lemma diffs_pos (l : List ℚ) (hl : List.Chain' (· < ·) l) :
    ∀ d ∈ diffs l, 0 < d := by
  induction l with
  | nil => intro d hd; simp [diffs] at hd
  | cons a t ih =>
    cases t with
    | nil => intro d hd; simp [diffs] at hd
    | cons b t' =>
      rw [List.chain'_cons] at hl
      intro d hd
      simp only [diffs, List.tail_cons, List.zipWith_cons_cons] at hd
      rcases List.mem_cons.mp hd with h | h
      · rw [h]
        exact sub_pos.mpr hl.1
      · exact ih hl.2 d (by simpa [diffs] using h)

/-- Claim C8: whenever the RSI computation yields a value it lies in
`[0, 100]`; it yields no value (`NaN`) only in the degenerate case where
both rolling averages vanish; and a strictly monotonically rising 15-bar
close sequence (all gains, zero losses) does not fail on division by
zero and yields exactly `rsi14 = 100` (`rs = inf` maps to `rsi = 100`). -/
theorem rsi_bounds_and_rising :
    (∀ (closes : List ℚ) (r : ℚ), rsi14 closes = some r → 0 ≤ r ∧ r ≤ 100) ∧
    (∀ closes : List ℚ, rsi14 closes = none →
      gainAvg closes = 0 ∧ lossAvg closes = 0) ∧
    (∀ closes : List ℚ, closes.length = 15 → List.Chain' (· < ·) closes →
      rsi14 closes = some 100) := by
  refine ⟨?_, ?_, ?_⟩
  · intro closes r h
    have hg := gainAvg_nonneg closes
    have hl := lossAvg_nonneg closes
    unfold rsi14 rsiOfAvgs at h
    by_cases h0 : lossAvg closes = 0
    · rw [if_pos h0] at h
      by_cases h1 : gainAvg closes = 0
      · rw [if_pos h1] at h
        exact Option.noConfusion h
      · rw [if_neg h1] at h
        cases Option.some.inj h
        norm_num
    · rw [if_neg h0] at h
      cases Option.some.inj h
      have hlpos : 0 < lossAvg closes := lt_of_le_of_ne hl (Ne.symm h0)
      have hrs : 0 ≤ gainAvg closes / lossAvg closes := div_nonneg hg hlpos.le
      have hdivpos : 0 ≤ 100 / (1 + gainAvg closes / lossAvg closes) :=
        div_nonneg (by norm_num) (by linarith)
      have hdivle : 100 / (1 + gainAvg closes / lossAvg closes) ≤ 100 :=
        div_le_self (by norm_num) (by linarith)
      constructor <;> linarith
  · intro closes h
    unfold rsi14 rsiOfAvgs at h
    by_cases h0 : lossAvg closes = 0
    · rw [if_pos h0] at h
      by_cases h1 : gainAvg closes = 0
      · exact ⟨h1, h0⟩
      · rw [if_neg h1] at h
        exact Option.noConfusion h
    · rw [if_neg h0] at h
      exact Option.noConfusion h
  · intro closes hlen hchain
    have hpos := diffs_pos closes hchain
    have hdlen : (diffs closes).length = 14 := by
      unfold diffs
      rw [List.length_zipWith, List.length_tail, hlen]
      omega
    have hlast : lastN 14 (diffs closes) = diffs closes := by
      unfold lastN
      rw [hdlen]
      simp
    have hloss : lossAvg closes = 0 := by
      unfold lossAvg
      rw [hlast]
      have hz : ∀ x ∈ (diffs closes).map (fun d => max (-d) 0), x = 0 := by
        intro x hx
        obtain ⟨d, hd, rfl⟩ := List.mem_map.mp hx
        have := hpos d hd
        exact max_eq_right (by linarith)
      rw [List.sum_eq_zero hz]
      norm_num
    have hgain : 0 < gainAvg closes := by
      unfold gainAvg
      rw [hlast]
      apply div_pos _ (by norm_num)
      apply List.sum_pos
      · intro x hx
        obtain ⟨d, hd, rfl⟩ := List.mem_map.mp hx
        exact lt_max_iff.mpr (Or.inl (hpos d hd))
      · apply List.length_pos.mp
        rw [List.length_map, hdlen]
        norm_num
    unfold rsi14 rsiOfAvgs
    rw [hloss, if_pos rfl, if_neg hgain.ne']

/-- Witness for claim C8: the strictly rising 15-bar sequence 1..15 has
RSI exactly 100, and that value satisfies the proved bounds. -/
theorem rsi_bounds_and_rising_witness :
    rsi14 [1, 2, 3, 4, 5, 6, 7, 8, 9, 10, 11, 12, 13, 14, 15] = some 100 ∧
      0 ≤ (100 : ℚ) ∧ (100 : ℚ) ≤ 100 := by
  have h := rsi_bounds_and_rising.2.2
    [1, 2, 3, 4, 5, 6, 7, 8, 9, 10, 11, 12, 13, 14, 15]
    (by rfl) (by norm_num [List.chain'_cons, List.chain'_singleton])
  exact ⟨h, rsi_bounds_and_rising.1
    [1, 2, 3, 4, 5, 6, 7, 8, 9, 10, 11, 12, 13, 14, 15] 100 h⟩

/-! ## Pool filtering and sorting (`main`, lines 383-398 and 421-436) -/

/-- Embedding of pandas `DataFrame.sort_values(by=k, ascending=False)`
with the default `kind='quicksort'`, as called on lines 398 and 436.
For a descending sort pandas (`pandas.core.sorting.nargsort`) reverses
the key column and the index array, computes an ascending argsort, and
reverses the resulting indexer again; when the underlying argsort is
stable this double reversal yields a stable descending sort (ties keep
their original order).  On columns of at most 15 rows — always the case
for this app's 15- and 14-ticker pools — numpy's introsort degenerates
to pure insertion sort, which is stable, so the argsort is modelled by
the stable `List.mergeSort` between the two reversals. -/
def sort_values_desc {α : Type} (key : α → ℚ) (l : List α) : List α :=
  (l.reverse.mergeSort (fun a b => decide (key a ≤ key b))).reverse

/-- The shield-pool pipeline of lines 383-398: scan each ticker, keep
results with score at least 70, sort descending by V32 score. -/
def shieldPool (fetch : String → List Bar) (earn : String → ℤ)
    (pool : List String) : List ScanResult :=
  sort_values_desc (fun r => (r.score : ℚ)) (scanPool fetch earn 70 pool)

/-- The spear-pool pipeline of lines 421-436: scan each ticker, keep
results with score at least 80, sort descending by relative volume. -/
def spearPool (fetch : String → List Bar) (earn : String → ℤ)
    (pool : List String) : List ScanResult :=
  sort_values_desc ScanResult.rvol (scanPool fetch earn 80 pool)

/-! ### Sorting-model lemmas -/

lemma keyLe_trans {α : Type} (key : α → ℚ) (a b c : α)
    (h1 : decide (key a ≤ key b) = true) (h2 : decide (key b ≤ key c) = true) :
    decide (key a ≤ key c) = true := by
  simp only [decide_eq_true_eq] at h1 h2 ⊢
  exact le_trans h1 h2

lemma keyLe_total {α : Type} (key : α → ℚ) (a b : α) :
    decide (key a ≤ key b) || decide (key b ≤ key a) := by
  simpa using le_total (key a) (key b)

lemma sort_values_desc_perm {α : Type} (key : α → ℚ) (l : List α) :
    sort_values_desc key l ~ l :=
  ((List.reverse_perm _).trans (List.mergeSort_perm l.reverse _)).trans
    (List.reverse_perm l)

lemma sort_values_desc_sorted {α : Type} (key : α → ℚ) (l : List α) :
    List.Pairwise (fun a b => key b ≤ key a) (sort_values_desc key l) := by
  unfold sort_values_desc
  rw [List.pairwise_reverse]
  have h := List.sorted_mergeSort (keyLe_trans key) (keyLe_total key) l.reverse
  exact h.imp (by intro a b hab; simpa using hab)

/-- Stability of the modelled descending sort: two entries with equal
keys appear in the output in their original relative order. -/
lemma sort_values_desc_tie_stable {α : Type} (key : α → ℚ) (l : List α) (a b : α)
    (hk : key a = key b) (hab : [a, b] <+ l) :
    [a, b] <+ sort_values_desc key l := by
  unfold sort_values_desc
  have hrev : [b, a] <+ l.reverse := by
    simpa using hab.reverse
  have h := List.pair_sublist_mergeSort (keyLe_trans key) (keyLe_total key)
    (by simp [hk]) hrev
  simpa using h.reverse

/-- The per-ticker keep test distributes over a filterMap: keeping while
scanning equals scanning raw and then filtering by the threshold. -/
lemma filterMap_keepAbove (thr : ℕ) (f : String → Option ScanResult)
    (pool : List String) :
    pool.filterMap (fun t => keepAbove thr (f t)) =
      (pool.filterMap f).filter (fun r => decide (thr ≤ r.score)) := by
  induction pool with
  | nil => rfl
  | cons t ts ih =>
    cases hc : f t with
    | none =>
      rw [List.filterMap_cons_none (by rw [hc]; rfl),
        List.filterMap_cons_none hc]
      exact ih
    | some d =>
      simp only [List.filterMap_cons, hc, keepAbove]
      by_cases hd : thr ≤ d.score
      · rw [if_pos hd, List.filter_cons, if_pos (by simpa using hd)]
        exact congrArg (d :: ·) ih
      · rw [if_neg hd, List.filter_cons, if_neg (by simpa using hd)]
        exact ih

/-- The threshold scan of a pool is the raw scan filtered by the
threshold. -/
lemma scanPool_eq_filter (fetch : String → List Bar) (earn : String → ℤ)
    (thr : ℕ) (pool : List String) :
    scanPool fetch earn thr pool =
      (rawScan fetch earn pool).filter (fun r => decide (thr ≤ r.score)) :=
  filterMap_keepAbove thr (fun t => calculate_v32_us t (fetch t) (earn t)) pool

/-- Claim C6: the pool filter keeps exactly the scan results with score
at least the threshold (70 for the conservative pool, 80 for the momentum
pool); the conservative pool is sorted descending by score and the
momentum pool descending by rvol; ties are broken by original scan order
(a stable sort — pandas reverses the column before and the indexer after
its stable ascending argsort, preserving the original order of equal
keys). -/
theorem pool_filter_sort (fetch : String → List Bar)
    (earn : String → ℤ) (pool : List String) :
    (shieldPool fetch earn pool).Perm
        ((rawScan fetch earn pool).filter (fun r => decide (70 ≤ r.score))) ∧
    (spearPool fetch earn pool).Perm
        ((rawScan fetch earn pool).filter (fun r => decide (80 ≤ r.score))) ∧
    List.Pairwise (fun a b : ScanResult => b.score ≤ a.score)
        (shieldPool fetch earn pool) ∧
    List.Pairwise (fun a b : ScanResult => b.rvol ≤ a.rvol)
        (spearPool fetch earn pool) ∧
    (∀ a b : ScanResult, a.score = b.score →
      [a, b] <+ scanPool fetch earn 70 pool →
      [a, b] <+ shieldPool fetch earn pool) ∧
    (∀ a b : ScanResult, a.rvol = b.rvol →
      [a, b] <+ scanPool fetch earn 80 pool →
      [a, b] <+ spearPool fetch earn pool) := by
  refine ⟨?_, ?_, ?_, ?_, ?_, ?_⟩
  · rw [← scanPool_eq_filter]
    exact sort_values_desc_perm _ _
  · rw [← scanPool_eq_filter]
    exact sort_values_desc_perm _ _
  · have h := sort_values_desc_sorted (fun r => (r.score : ℚ))
      (scanPool fetch earn 70 pool)
    exact h.imp (by intro a b hab; exact_mod_cast hab)
  · exact sort_values_desc_sorted ScanResult.rvol (scanPool fetch earn 80 pool)
  · intro a b hk hsub
    exact sort_values_desc_tie_stable _ _ a b (by rw [hk]) hsub
  · intro a b hk hsub
    exact sort_values_desc_tie_stable _ _ a b hk hsub

/-- Concrete 200-bar strictly rising history used by the pool witness:
closes 1..200, constant volume 7.  Its scan record scores 100 with
relative volume 1. -/
def risingHist : List Bar := (List.range 200).map (fun i => ⟨(i : ℚ) + 1, 7⟩)

/-- Scan record of `risingHist` for a given ticker. -/
def risingScan (t : String) : ScanResult := resultOf t risingHist 999

lemma risingHist_score : calcScore (snapshotOf risingHist) = 100 := by
  with_unfolding_all decide

lemma risingCalc (t : String) :
    calculate_v32_us t risingHist 999 = some (risingScan t) := by
  unfold calculate_v32_us risingScan
  rw [if_neg (by with_unfolding_all decide)]

lemma keepRising (thr : ℕ) (h1 : thr ≤ 100) (t : String) :
    keepAbove thr (calculate_v32_us t risingHist 999) = some (risingScan t) := by
  rw [risingCalc t]
  have hs : (risingScan t).score = 100 := risingHist_score
  simp only [keepAbove]
  rw [if_pos (by rw [hs]; exact h1)]

lemma scanPool_rising (thr : ℕ) (h1 : thr ≤ 100) :
    scanPool (fun _ => risingHist) (fun _ => 999) thr ["A", "B"] =
      [risingScan "A", risingScan "B"] := by
  simp only [scanPool, List.filterMap_cons, List.filterMap_nil]
  rw [keepRising thr h1 "A", keepRising thr h1 "B"]

/-- Witness for claim C6: a two-ticker pool whose results tie on score
(both 100) and on rvol (both 1) keeps both results in original scan
order in both pools. -/
theorem pool_filter_sort_witness :
    [risingScan "A", risingScan "B"] <+
        shieldPool (fun _ => risingHist) (fun _ => 999) ["A", "B"] ∧
    [risingScan "A", risingScan "B"] <+
        spearPool (fun _ => risingHist) (fun _ => 999) ["A", "B"] := by
  constructor
  · refine (pool_filter_sort (fun _ => risingHist) (fun _ => 999)
      ["A", "B"]).2.2.2.2.1 (risingScan "A") (risingScan "B") rfl ?_
    rw [scanPool_rising 70 (by norm_num)]
  · refine (pool_filter_sort (fun _ => risingHist) (fun _ => 999)
      ["A", "B"]).2.2.2.2.2 (risingScan "A") (risingScan "B") rfl ?_
    rw [scanPool_rising 80 (by norm_num)]

end V32
